import Mathlib

/-!
# Verification of the NotifAi reminder store and due-check scheduler

Shallow embedding of the reminder application in `gui.py`.

Modelling conventions:

* A timezone-aware `datetime` is represented by the absolute instant it
  denotes, as an integer number of seconds (`Int`).  Normalising a naive
  datetime with `astimezone()` does not change the instant it denotes, so
  those normalisation steps in the source disappear in the embedding.
* A reminder record is a Python dict.  For records created through the GUI
  every key is present, so the store record type `Reminder` has total `id`,
  `text` and `notified` fields; the `dateTime` entry may hold a non-datetime
  value (the source guards it with `isinstance(..., datetime)`), hence
  `dateTime : Option Int` with `none` standing for an invalid value.
* Raw dicts as they come out of `json.load`, where any key may be missing,
  are modelled separately (`RawItem` for the persistence layer and `RawRec`
  for the checker thread).
* `QMessageBox.warning/critical` followed by `return` is modelled as the
  operation returning the unchanged store together with the error that was
  reported (`Option AppError`).
* Python's `list.sort(key=...)` is a stable sort; it is modelled with
  `List.mergeSort`, which is also stable.
-/

/-- A reminder record as held in `self.reminders` (dict with keys
`id`, `text`, `dateTime`, `notified`).  `dateTime = some t` means the entry
holds a timezone-aware datetime denoting instant `t`; `none` means the entry
holds a non-datetime value. -/
structure Reminder where
  id : Int
  text : String
  dateTime : Option Int
  notified : Bool
deriving DecidableEq, Repr

/-- The error classes of the spec's taxonomy, as signalled by the source
through warning/critical dialogs followed by an early return. -/
inductive AppError
  | validationError
  | notFoundError
  | invalidDateError
deriving DecidableEq, Repr

/-- Comparison on the sort key `r['dateTime']`.  On two valid datetimes this
is exactly Python's `<=` on datetimes; an invalid value is ordered first to
make the comparison total (the source never sorts a store holding an invalid
`dateTime`: `load_reminders` drops such items and `add`/`edit` only create
valid ones). -/
def keyLe : Option Int → Option Int → Bool
  | none, _ => true
  | some _, none => false
  | some a, some b => a ≤ b

/-- `self.reminders.sort(key=lambda r: r['dateTime'])`, element order. -/
def dueLe (r s : Reminder) : Bool :=
  keyLe r.dateTime s.dateTime

/-- `self.reminders.sort(key=lambda r: r['dateTime'])` (stable sort). -/
def sortByDue (rs : List Reminder) : List Reminder :=
  rs.mergeSort dueLe

/-- The store invariant "ascending order of `due_at`". -/
def SortedByDue (rs : List Reminder) : Prop :=
  rs.Pairwise (fun a b => dueLe a b = true)

/-- Two-digit zero-padded decimal, as in `strftime`. -/
def pad2 (n : Nat) : String :=
  if n < 10 then "0" ++ toString n else toString n

/-- `dt.strftime('%H:%M')` for the instant `t` (seconds), in local time. -/
def strftimeHM (t : Int) : String :=
  pad2 ((t.ediv 3600).emod 24).toNat ++ ":" ++ pad2 ((t.ediv 60).emod 60).toNat

/-! ## Store operations (`ReminderApp`) -/

/-- `ReminderApp.add_reminder` (gui.py lines 282-315), acting on the store.
`text` is the stripped input text, `dt` the instant chosen in the dialog,
`now` the instant captured by `datetime.now().astimezone()`, and `fid` the
value of `datetime.now().timestamp()` used as the new record's id.  Returns
the new store together with the error reported, if any. -/
def add_reminder (now fid : Int) (text : String) (dt : Int)
    (rs : List Reminder) : List Reminder × Option AppError :=
  if text = "" then
    (rs, some .validationError)
  else if dt ≤ now then
    (rs, some .validationError)
  else
    (sortByDue (rs ++ [{ id := fid, text := text, dateTime := some dt, notified := false }]),
     none)

/-- `ReminderApp.delete_reminder` (gui.py lines 317-342) after the user
selected the row carrying `rid` and confirmed the dialog: the store is
filtered; no lookup failure is ever reported. -/
def delete_reminder (rid : Int) (rs : List Reminder) :
    List Reminder × Option AppError :=
  (rs.filter (fun r => !(r.id == rid)), none)

/-- Apply `f` to the first element satisfying `p`, leaving the rest alone:
the in-place mutation of the first dict found by the
`for r in self.reminders: if r['id'] == reminder_id: ... break` loop. -/
def updateFirst (p : Reminder → Bool) (f : Reminder → Reminder) :
    List Reminder → List Reminder
  | [] => []
  | r :: rs => if p r then f r :: rs else r :: updateFirst p f rs

/-- `ReminderApp.edit_reminder_dialog` (gui.py lines 345-396), acting on the
store.  `rid` is the id stored in the double-clicked row, `nt` the stripped
new text, `nd` the new instant from the dialog, `now` the instant captured
after the dialog is accepted.  Checks mirror the source's order: record
lookup, `isinstance(..., datetime)` on its `dateTime`, empty text, past
time; on success the found record's fields are replaced in place, `notified`
is reset when `nd > now` and the record was notified or past due, and the
store is re-sorted. -/
def edit_reminder_dialog (rid : Int) (nt : String) (nd now : Int)
    (rs : List Reminder) : List Reminder × Option AppError :=
  match rs.find? (fun r => r.id == rid) with
  | none => (rs, some .notFoundError)
  | some r =>
    match r.dateTime with
    | none => (rs, some .invalidDateError)
    | some _ =>
      if nt = "" then
        (rs, some .validationError)
      else if nd ≤ now then
        (rs, some .validationError)
      else
        (sortByDue (updateFirst (fun s => s.id == rid)
          (fun s =>
            { s with
              text := nt
              dateTime := some nd
              notified :=
                if now < nd ∧ (s.notified = true ∨ s.dateTime.getD 0 ≤ now) then
                  false
                else s.notified })
          rs), none)

/-! ## Persistence (`save_reminders` / `load_reminders`) -/

/-- One object of the persisted JSON array: `id`, `text`, `notified` as
stored, and `dateTime` an ISO-8601 string with offset, represented by the
instant it denotes. -/
structure SavedReminder where
  id : Int
  text : String
  dateTime : Int
  notified : Bool
deriving DecidableEq, Repr

/-- `ReminderApp.save_reminders` (gui.py lines 264-280): each record whose
`dateTime` is a datetime is written with `dateTime` serialised via
`isoformat()`; records with an invalid `dateTime` are skipped with a printed
warning. -/
def save_reminders : List Reminder → List SavedReminder
  | [] => []
  | r :: rs =>
    match r.dateTime with
    | some t =>
      { id := r.id, text := r.text, dateTime := t, notified := r.notified }
        :: save_reminders rs
    | none => save_reminders rs

/-- A JSON object handed to `load_reminders`, with `id` and `text` present.
`dateTime = some t`: the `dateTime` entry is a string that
`datetime.fromisoformat` parses to the instant `t`; `none`: the entry is
missing or unparseable (`ValueError`/`TypeError`/`KeyError`).
`notified = none`: the `notified` key is absent. -/
structure RawItem where
  id : Int
  text : String
  dateTime : Option Int
  notified : Option Bool
deriving DecidableEq, Repr

/-- The per-item `try` body of `ReminderApp.load_reminders`: parse
`dateTime`, default `notified` to `False`; a parse failure is caught and the
item skipped. -/
def parseItem (it : RawItem) : Option Reminder :=
  match it.dateTime with
  | some t =>
    some { id := it.id, text := it.text, dateTime := some t,
           notified := it.notified.getD false }
  | none => none

/-- `ReminderApp.load_reminders` (gui.py lines 228-261) on a successfully
decoded JSON array: keep the parseable items, then sort by `dateTime`. -/
def load_reminders (items : List RawItem) : List Reminder :=
  sortByDue (items.filterMap parseItem)

/-- Reading back one object written by `save_reminders`:
`datetime.fromisoformat` inverts `isoformat()` on an aware datetime, and
`json` round-trips the remaining fields, so every field is present and the
`dateTime` string parses to the instant that was written. -/
def savedToRaw (s : SavedReminder) : RawItem :=
  { id := s.id, text := s.text, dateTime := some s.dateTime,
    notified := some s.notified }

/-! ## The due-check scan (`ReminderCheckerThread.run`) -/

/-- One pass of the `for reminder in list(self.reminders)` loop in
`ReminderCheckerThread.run` (gui.py lines 96-114), over well-formed records.
`now` is captured once (`now_aware`, line 98) before the loop and used for
every comparison.  Returns the store after the in-place `notified`
mutations together with the `(title, message)` payloads emitted through
`reminder_due_signal`, in scan order. -/
def checker_scan (now : Int) : List Reminder → List Reminder × List (String × String)
  | [] => ([], [])
  | r :: rs =>
    match r.dateTime with
    | none =>
      let (rs', es) := checker_scan now rs
      (r :: rs', es)
    | some t =>
      if !r.notified && decide (t ≤ now) then
        let (rs', es) := checker_scan now rs
        ({ r with notified := true } :: rs',
         (r.text, "Reminder set for " ++ strftimeHM t) :: es)
      else
        let (rs', es) := checker_scan now rs
        (r :: rs', es)

/-- The due condition of line 108: `not reminder.get('notified', False) and
reminder_time <= now_aware`, guarded by `dateTime` being a datetime. -/
def isDue (now : Int) (r : Reminder) : Bool :=
  !r.notified &&
    (match r.dateTime with
     | some t => decide (t ≤ now)
     | none => false)

/-- The signal payload emitted for a due reminder (line 111). -/
def dueEvent (r : Reminder) : String × String :=
  (r.text, "Reminder set for " ++ strftimeHM (r.dateTime.getD 0))

/-- A raw reminder dict as the checker thread may encounter it after a load
of a hand-edited file: any of `id` and `text` may be missing, `dateTime`
may hold a non-datetime value. -/
structure RawRec where
  id : Option Int
  text : Option String
  dateTime : Option Int
  notified : Bool
deriving DecidableEq, Repr

/-- One pass of the loop in `ReminderCheckerThread.run` over raw dicts.
A record whose `dateTime` is not a datetime is skipped (line 100's
`isinstance` guard with `continue`); but for a due record the source
accesses `reminder['text']` (lines 109 and 111) with no guard, so a missing
`text` key raises an uncaught `KeyError`, which aborts `run()` — modelled
as the scan returning `none`. -/
def checker_scan_raw (now : Int) : List RawRec → Option (List RawRec × List (String × String))
  | [] => some ([], [])
  | r :: rs =>
    match r.dateTime with
    | none =>
      match checker_scan_raw now rs with
      | none => none
      | some (rs', es) => some (r :: rs', es)
    | some t =>
      if !r.notified && decide (t ≤ now) then
        match r.text with
        | none => none
        | some txt =>
          match checker_scan_raw now rs with
          | none => none
          | some (rs', es) =>
            some ({ r with notified := true } :: rs',
                  (txt, "Reminder set for " ++ strftimeHM t) :: es)
      else
        match checker_scan_raw now rs with
        | none => none
        | some (rs', es) => some (r :: rs', es)

/-- Pairwise distinctness of the records' ids. -/
def IdsDistinct (rs : List Reminder) : Prop :=
  (rs.map (fun r => r.id)).Nodup

/-! ## Helper lemmas -/

theorem keyLe_trans : ∀ a b c, keyLe a b = true → keyLe b c = true → keyLe a c = true := by
  intro a b c hab hbc
  cases a <;> cases b <;> cases c <;> simp [keyLe] at * <;> omega

theorem keyLe_total : ∀ a b, keyLe a b || keyLe b a := by
  intro a b
  cases a <;> cases b <;> simp [keyLe] <;> omega

theorem dueLe_trans : ∀ a b c : Reminder, dueLe a b → dueLe b c → dueLe a c := by
  intro a b c hab hbc
  exact keyLe_trans _ _ _ hab hbc

theorem dueLe_total : ∀ a b : Reminder, dueLe a b || dueLe b a := by
  intro a b
  exact keyLe_total _ _

theorem sortByDue_perm (rs : List Reminder) : (sortByDue rs).Perm rs :=
  List.mergeSort_perm rs dueLe

theorem sorted_sortByDue (rs : List Reminder) : SortedByDue (sortByDue rs) :=
  List.sorted_mergeSort dueLe_trans dueLe_total rs

theorem sortByDue_of_sorted {rs : List Reminder} (h : SortedByDue rs) :
    sortByDue rs = rs :=
  List.mergeSort_of_sorted h

theorem mergeSort_pair {α : Type} (le : α → α → Bool) (a b : α) :
    List.mergeSort [a, b] le = if le a b then [a, b] else [b, a] := by
  rw [List.mergeSort]
  simp [List.splitInTwo, List.splitAt_eq, List.merge]

theorem sortByDue_pair (r s : Reminder) :
    sortByDue [r, s] = if dueLe r s then [r, s] else [s, r] := by
  simp [sortByDue, mergeSort_pair]

theorem checker_scan_fst (now : Int) (rs : List Reminder) :
    (checker_scan now rs).1 =
      rs.map (fun r => if isDue now r then { r with notified := true } else r) := by
  induction rs with
  | nil => simp [checker_scan]
  | cons r rs ih =>
    cases hdt : r.dateTime with
    | none => simp [checker_scan, hdt, isDue, ih]
    | some t =>
      cases hn : r.notified with
      | true => simp [checker_scan, hdt, isDue, hn, ih]
      | false =>
        by_cases ht : t ≤ now
        · simp [checker_scan, hdt, isDue, hn, ht, ih]
        · simp [checker_scan, hdt, isDue, hn, ht, ih]

theorem checker_scan_snd (now : Int) (rs : List Reminder) :
    (checker_scan now rs).2 = (rs.filter (isDue now)).map dueEvent := by
  induction rs with
  | nil => simp [checker_scan]
  | cons r rs ih =>
    cases hdt : r.dateTime with
    | none => simp [checker_scan, hdt, isDue, ih]
    | some t =>
      cases hn : r.notified with
      | true => simp [checker_scan, hdt, isDue, hn, ih]
      | false =>
        by_cases ht : t ≤ now
        · simp [checker_scan, hdt, isDue, hn, ht, ih, dueEvent]
        · simp [checker_scan, hdt, isDue, hn, ht, ih]

theorem decode_save (rs : List Reminder) :
    ((save_reminders rs).map savedToRaw).filterMap parseItem =
      rs.filter (fun r => r.dateTime.isSome) := by
  induction rs with
  | nil => simp [save_reminders]
  | cons r rs ih =>
    obtain ⟨i, tx, dt, nf⟩ := r
    cases dt with
    | none => simp [save_reminders, ih]
    | some t => simp [save_reminders, savedToRaw, parseItem, ih]

/-! ## Claim theorems -/

/-- C1.  On a wake of the due-check loop a single timestamp `now` (captured
once, before the loop) is used for every comparison of the scan: for every
reminder with `notified = false` and `due_at ≤ now` exactly one due-event
carrying its text and formatted due time is emitted and its `notified` flag
is set to true; every other reminder is left unchanged and emits nothing.
The store after the scan is the pointwise update of the store, and the
emitted events are exactly the due records' payloads, in store order. -/
theorem checker_scan_marks_due_and_emits_once (now : Int) (rs : List Reminder) :
    checker_scan now rs =
      (rs.map (fun r => if isDue now r then { r with notified := true } else r),
       (rs.filter (isDue now)).map dueEvent) := by
  rw [Prod.ext_iff]
  exact ⟨checker_scan_fst now rs, checker_scan_snd now rs⟩

/-- C10.  `save_reminders` writes exactly the records whose `dateTime` is a
valid datetime, in store order, silently omitting the invalid ones; loading
the written file back yields exactly the valid records (re-sorted), so the
invalid records are lost. -/
theorem save_writes_exactly_valid_records (rs : List Reminder) :
    save_reminders rs =
      (rs.filter (fun r => r.dateTime.isSome)).map
        (fun r =>
          { id := r.id, text := r.text, dateTime := r.dateTime.getD 0,
            notified := r.notified })
    ∧ load_reminders ((save_reminders rs).map savedToRaw) =
        sortByDue (rs.filter (fun r => r.dateTime.isSome)) := by
  constructor
  · induction rs with
    | nil => simp [save_reminders]
    | cons r rs ih =>
      obtain ⟨i, tx, dt, nf⟩ := r
      cases dt with
      | none => simp [save_reminders, ih]
      | some t => simp [save_reminders, ih]
  · rw [load_reminders, decode_save]

/-- C3.  `add` with empty text or a non-future timestamp reports a
validation error and returns with the store exactly as it was. -/
theorem add_invalid_input_rejected (now fid : Int) (text : String) (dt : Int)
    (rs : List Reminder) (h : text = "" ∨ dt ≤ now) :
    add_reminder now fid text dt rs = (rs, some AppError.validationError) := by
  rcases h with h | h
  · simp [add_reminder, h]
  · by_cases ht : text = ""
    · simp [add_reminder, ht]
    · simp [add_reminder, ht, h]

theorem add_invalid_input_rejected_witness :
    (("" : String) = "" ∨ (5 : Int) ≤ 10)
    ∧ add_reminder 10 1 "" 5 [] = ([], some AppError.validationError) :=
  ⟨Or.inl rfl, add_invalid_input_rejected 10 1 "" 5 [] (Or.inl rfl)⟩

/-- C4.  `add` with non-empty text and a strictly future timestamp succeeds:
the new store is a permutation of the old one extended with exactly one new
record carrying the given text and time and `notified = false` (so every
previously present record is kept unchanged), and it is sorted ascending by
`due_at`. -/
theorem add_valid_input_inserts (now fid : Int) (text : String) (dt : Int)
    (rs : List Reminder) (htext : text ≠ "") (hdt : now < dt) :
    (add_reminder now fid text dt rs).2 = none
    ∧ (add_reminder now fid text dt rs).1.Perm
        (rs ++ [{ id := fid, text := text, dateTime := some dt, notified := false }])
    ∧ SortedByDue (add_reminder now fid text dt rs).1 := by
  have hle : ¬ dt ≤ now := not_le.mpr hdt
  have h1 : add_reminder now fid text dt rs =
      (sortByDue (rs ++ [{ id := fid, text := text, dateTime := some dt, notified := false }]),
       none) := by
    simp [add_reminder, htext, hle]
  rw [h1]
  exact ⟨rfl, sortByDue_perm _, sorted_sortByDue _⟩

theorem add_valid_input_inserts_witness :
    ("x" : String) ≠ "" ∧ (0 : Int) < 5
    ∧ ((add_reminder 0 1 "x" 5 []).2 = none
       ∧ (add_reminder 0 1 "x" 5 []).1.Perm
           ([] ++ [{ id := 1, text := "x", dateTime := some 5, notified := false }])
       ∧ SortedByDue (add_reminder 0 1 "x" 5 []).1) :=
  ⟨by decide, by decide, add_valid_input_inserts 0 1 "x" 5 [] (by decide) (by decide)⟩

/-- C8 counterexample: deleting an id that is absent from the store reports
no error at all — the result is the unchanged store paired with `none`, not
with a NotFoundError.  The source's `delete_reminder` has no lookup-failure
branch: it only filters. -/
theorem delete_unknown_id_counterexample :
    (delete_reminder 2 [{ id := 1, text := "a", dateTime := some 5, notified := false }]
       = ([{ id := 1, text := "a", dateTime := some 5, notified := false }], none))
    ∧ ¬ (delete_reminder 2
          [{ id := 1, text := "a", dateTime := some 5, notified := false }]).2
        = some AppError.notFoundError := by
  decide

/-- C8 amended: deleting an id not present in the store leaves the store
exactly unchanged and signals no error. -/
theorem delete_unknown_id_leaves_store (rid : Int) (rs : List Reminder)
    (h : ∀ r ∈ rs, r.id ≠ rid) :
    delete_reminder rid rs = (rs, none) := by
  have hf : rs.filter (fun r => !(r.id == rid)) = rs :=
    List.filter_eq_self.mpr (by intro r hr; simpa using h r hr)
  simp [delete_reminder, hf]

theorem delete_unknown_id_leaves_store_witness :
    (∀ r ∈ [({ id := 1, text := "a", dateTime := some 5, notified := false } : Reminder)],
       r.id ≠ 2)
    ∧ delete_reminder 2 [{ id := 1, text := "a", dateTime := some 5, notified := false }]
        = ([{ id := 1, text := "a", dateTime := some 5, notified := false }], none) :=
  ⟨by decide, delete_unknown_id_leaves_store 2 _ (by decide)⟩

/-- C7.  A due record whose dict lacks the `text` key makes the scan raise
an uncaught `KeyError` at `reminder['text']`, aborting
`ReminderCheckerThread.run` — the loop terminates without `stop()` instead
of skipping the record; a record whose `dateTime` is not a datetime, in
contrast, is skipped and the scan continues. -/
theorem checker_scan_raw_crashes_on_missing_text :
    checker_scan_raw 100
      [{ id := none, text := none, dateTime := some 50, notified := false }] = none
    ∧ checker_scan_raw 100
        [{ id := none, text := none, dateTime := none, notified := false },
         { id := some 1, text := some "a", dateTime := some 50, notified := false }]
      = some ([{ id := none, text := none, dateTime := none, notified := false },
               { id := some 1, text := some "a", dateTime := some 50, notified := true }],
              [("a", "Reminder set for " ++ strftimeHM 50)]) := by
  constructor
  · rfl
  · rfl

theorem find?_updateFirst_split {p : Reminder → Bool} {rs : List Reminder}
    {r : Reminder} (h : rs.find? p = some r) (f : Reminder → Reminder) :
    ∃ pre post, rs = pre ++ r :: post ∧ updateFirst p f rs = pre ++ f r :: post := by
  induction rs with
  | nil => simp at h
  | cons a rs ih =>
    by_cases hp : p a = true
    · have ha : a = r := by
        rw [List.find?_cons_of_pos _ hp] at h
        exact Option.some.inj h
      subst ha
      exact ⟨[], rs, rfl, by simp [updateFirst, hp]⟩
    · rw [List.find?_cons_of_neg _ hp] at h
      obtain ⟨pre, post, h1, h2⟩ := ih h
      exact ⟨a :: pre, post, by simp [h1],
             by simp [updateFirst, hp, h2]⟩

/-- C2.  A successful edit — non-empty new text, strictly future new time,
on a record present in the store with a valid `dateTime` — replaces exactly
that record's `text` and `due_at`, resets `notified` to `false` precisely
when the record was previously notified or previously past due
(`due_at ≤ now`) and leaves `notified` unchanged otherwise, keeps every
other record unchanged, and re-sorts the store. -/
theorem edit_valid_input_updates (rid : Int) (nt : String) (nd now : Int)
    (rs : List Reminder) (r : Reminder) (t : Int)
    (hfind : rs.find? (fun s => s.id == rid) = some r)
    (hdt : r.dateTime = some t) (hnt : nt ≠ "") (hnd : now < nd) :
    ∃ pre post, rs = pre ++ r :: post ∧
      edit_reminder_dialog rid nt nd now rs =
        (sortByDue (pre ++
          { r with
              text := nt
              dateTime := some nd
              notified := if r.notified = true ∨ t ≤ now then false else r.notified }
          :: post), none) := by
  have hle : ¬ nd ≤ now := not_le.mpr hnd
  obtain ⟨pre, post, h1, h2⟩ := find?_updateFirst_split hfind
    (fun s =>
      { s with
        text := nt
        dateTime := some nd
        notified :=
          if now < nd ∧ (s.notified = true ∨ s.dateTime.getD 0 ≤ now) then false
          else s.notified })
  refine ⟨pre, post, h1, ?_⟩
  rw [edit_reminder_dialog, hfind]
  simp only [hdt, hnt, hle, eq_false hnt, eq_false hle, if_false]
  rw [h2]
  simp [hdt, hnd]

theorem edit_valid_input_updates_witness :
    ([({ id := 1, text := "a", dateTime := some 5, notified := false } : Reminder)].find?
        (fun s => s.id == 1)
      = some { id := 1, text := "a", dateTime := some 5, notified := false })
    ∧ (({ id := 1, text := "a", dateTime := some 5, notified := false } : Reminder).dateTime
        = some 5)
    ∧ ("b" : String) ≠ ""
    ∧ (10 : Int) < 20
    ∧ (∃ pre post,
        [({ id := 1, text := "a", dateTime := some 5, notified := false } : Reminder)]
          = pre ++ { id := 1, text := "a", dateTime := some 5, notified := false } :: post ∧
        edit_reminder_dialog 1 "b" 20 10
            [{ id := 1, text := "a", dateTime := some 5, notified := false }] =
          (sortByDue (pre ++
            { ({ id := 1, text := "a", dateTime := some 5, notified := false } : Reminder) with
                text := "b"
                dateTime := some 20
                notified :=
                  if ({ id := 1, text := "a", dateTime := some 5, notified := false }
                        : Reminder).notified = true ∨ (5 : Int) ≤ 10 then false
                  else ({ id := 1, text := "a", dateTime := some 5, notified := false }
                        : Reminder).notified }
            :: post), none)) :=
  ⟨rfl, rfl, by decide, by decide,
   edit_valid_input_updates 1 "b" 20 10
     [{ id := 1, text := "a", dateTime := some 5, notified := false }]
     { id := 1, text := "a", dateTime := some 5, notified := false } 5
     rfl rfl (by decide) (by decide)⟩

/-- C6.  Starting from a store in ascending `due_at` order (the store starts
empty), every mutating operation — `add`, `edit`, `delete`, and a `load`
from disk — leaves the store in ascending `due_at` order. -/
theorem store_sorted_after_each_mutation (rs : List Reminder)
    (h : SortedByDue rs) :
    (∀ now fid text dt, SortedByDue (add_reminder now fid text dt rs).1)
    ∧ (∀ rid nt nd now, SortedByDue (edit_reminder_dialog rid nt nd now rs).1)
    ∧ (∀ rid, SortedByDue (delete_reminder rid rs).1)
    ∧ (∀ items : List RawItem, SortedByDue (load_reminders items)) := by
  refine ⟨?_, ?_, ?_, ?_⟩
  · intro now fid text dt
    by_cases ht : text = ""
    · simpa [add_reminder, ht] using h
    · by_cases hd : dt ≤ now
      · simpa [add_reminder, ht, hd] using h
      · simpa [add_reminder, ht, hd] using sorted_sortByDue _
  · intro rid nt nd now
    rw [edit_reminder_dialog]
    cases hf : rs.find? (fun r => r.id == rid) with
    | none => simpa using h
    | some r =>
      cases hdt : r.dateTime with
      | none => simpa [hdt] using h
      | some t =>
        by_cases ht : nt = ""
        · simpa [hdt, ht] using h
        · by_cases hd : nd ≤ now
          · simpa [hdt, ht, hd] using h
          · simpa [hdt, ht, hd] using sorted_sortByDue _
  · intro rid
    exact h.sublist (List.filter_sublist rs)
  · intro items
    exact sorted_sortByDue _

theorem store_sorted_after_each_mutation_witness :
    SortedByDue [({ id := 1, text := "a", dateTime := some 5, notified := false } : Reminder)]
    ∧ ((∀ now fid text dt, SortedByDue (add_reminder now fid text dt
          [{ id := 1, text := "a", dateTime := some 5, notified := false }]).1)
       ∧ (∀ rid nt nd now, SortedByDue (edit_reminder_dialog rid nt nd now
            [{ id := 1, text := "a", dateTime := some 5, notified := false }]).1)
       ∧ (∀ rid, SortedByDue (delete_reminder rid
            [{ id := 1, text := "a", dateTime := some 5, notified := false }]).1)
       ∧ (∀ items : List RawItem, SortedByDue (load_reminders items))) :=
  ⟨List.pairwise_singleton _ _,
   store_sorted_after_each_mutation _ (List.pairwise_singleton _ _)⟩

/-- C5 counterexample: on a store that is not in ascending `due_at` order,
`save` followed by `load` re-sorts, so the records do not come back in the
same order: a two-record store `[b@10, a@5]` round-trips to `[a@5, b@10]`,
whose first record differs in `(text, due_at, notified)` from the
original's first record. -/
theorem save_load_roundtrip_counterexample :
    ¬ ((load_reminders ((save_reminders
          [{ id := 2, text := "b", dateTime := some 10, notified := false },
           { id := 1, text := "a", dateTime := some 5, notified := false }]).map savedToRaw)).map
          (fun r => (r.text, r.dateTime, r.notified))
        = [("b", some 10, false), ("a", some 5, false)]) := by
  intro hcontra
  rw [load_reminders, decode_save] at hcontra
  rw [show List.filter (fun r => r.dateTime.isSome)
        [({ id := 2, text := "b", dateTime := some 10, notified := false } : Reminder),
         { id := 1, text := "a", dateTime := some 5, notified := false }]
      = [{ id := 2, text := "b", dateTime := some 10, notified := false },
         { id := 1, text := "a", dateTime := some 5, notified := false }] from rfl,
      sortByDue_pair] at hcontra
  simp [dueLe, keyLe] at hcontra

/-- C5 amended: for every non-empty store that is in ascending `due_at`
order (which claim C6 shows every reachable store is) and in which every
record's `due_at` is a valid timestamp, `save` followed by `load` yields a
sequence of records equal to the original in `(text, due_at, notified)`
for every record, in the same order. -/
theorem save_load_roundtrip_sorted (rs : List Reminder)
    (hne : rs ≠ []) (hsorted : SortedByDue rs)
    (hvalid : ∀ r ∈ rs, r.dateTime.isSome) :
    (load_reminders ((save_reminders rs).map savedToRaw)).map
        (fun r => (r.text, r.dateTime, r.notified))
      = rs.map (fun r => (r.text, r.dateTime, r.notified)) := by
  have hfilter : rs.filter (fun r => r.dateTime.isSome) = rs :=
    List.filter_eq_self.mpr (by intro r hr; simpa using hvalid r hr)
  rw [load_reminders, decode_save, hfilter, sortByDue_of_sorted hsorted]

theorem save_load_roundtrip_sorted_witness :
    ([({ id := 1, text := "a", dateTime := some 5, notified := false } : Reminder),
      { id := 2, text := "b", dateTime := some 10, notified := true }] ≠ [])
    ∧ SortedByDue
        [({ id := 1, text := "a", dateTime := some 5, notified := false } : Reminder),
         { id := 2, text := "b", dateTime := some 10, notified := true }]
    ∧ (∀ r ∈ [({ id := 1, text := "a", dateTime := some 5, notified := false } : Reminder),
              { id := 2, text := "b", dateTime := some 10, notified := true }],
         r.dateTime.isSome)
    ∧ (load_reminders ((save_reminders
          [({ id := 1, text := "a", dateTime := some 5, notified := false } : Reminder),
           { id := 2, text := "b", dateTime := some 10, notified := true }]).map savedToRaw)).map
          (fun r => (r.text, r.dateTime, r.notified))
        = [({ id := 1, text := "a", dateTime := some 5, notified := false } : Reminder),
           { id := 2, text := "b", dateTime := some 10, notified := true }].map
            (fun r => (r.text, r.dateTime, r.notified)) :=
  ⟨by decide, by simp [SortedByDue, dueLe, keyLe], by decide,
   save_load_roundtrip_sorted _ (by decide) (by simp [SortedByDue, dueLe, keyLe]) (by decide)⟩

theorem idsDistinct_sortByDue (l : List Reminder) :
    IdsDistinct (sortByDue l) ↔ IdsDistinct l := by
  unfold IdsDistinct
  exact ((sortByDue_perm l).map (fun r => r.id)).nodup_iff

theorem map_id_updateFirst (p : Reminder → Bool) (f : Reminder → Reminder)
    (hf : ∀ s, (f s).id = s.id) (rs : List Reminder) :
    (updateFirst p f rs).map (fun r => r.id) = rs.map (fun r => r.id) := by
  induction rs with
  | nil => rfl
  | cons a rs ih =>
    by_cases hp : p a = true
    · simp [updateFirst, hp, hf]
    · simp [updateFirst, hp, ih]

theorem load_ids_sublist (items : List RawItem) :
    List.Sublist ((items.filterMap parseItem).map (fun r => r.id))
      (items.map (fun it => it.id)) := by
  induction items with
  | nil => simp
  | cons it items ih =>
    cases hdt : it.dateTime with
    | none =>
      rw [List.filterMap_cons_none (show parseItem it = none by simp [parseItem, hdt])]
      exact ih.cons _
    | some t =>
      rw [List.filterMap_cons_some
        (show parseItem it = some { id := it.id, text := it.text, dateTime := some t, notified := it.notified.getD false } by simp [parseItem, hdt])]
      simpa using ih.cons₂ it.id

/-- C9 counterexample: the store's ids are not pairwise distinct at every
reachable state — loading a file whose array carries two items with the
same id yields a store with a duplicated id, since `load_reminders` performs
no deduplication. -/
theorem ids_distinct_counterexample :
    ¬ IdsDistinct (load_reminders
        [{ id := 1, text := "a", dateTime := some 5, notified := some false },
         { id := 1, text := "b", dateTime := some 6, notified := some false }]) := by
  have h : load_reminders
      [{ id := 1, text := "a", dateTime := some 5, notified := some false },
       { id := 1, text := "b", dateTime := some 6, notified := some false }]
      = sortByDue
        [{ id := 1, text := "a", dateTime := some 5, notified := false },
         { id := 1, text := "b", dateTime := some 6, notified := false }] := by
    rw [load_reminders]
    rfl
  rw [h, sortByDue_pair]
  simp [dueLe, keyLe, IdsDistinct]

/-- C9 amended: ids stay pairwise distinct across every operation provided
each `add` is given an id not already in the store (the source derives the
id from `datetime.now().timestamp()`, which is not guaranteed fresh) and
each loaded file's items carry pairwise distinct ids (the source does not
deduplicate on load). -/
theorem ids_distinct_preserved (rs : List Reminder) (h : IdsDistinct rs) :
    (∀ now fid text dt, fid ∉ rs.map (fun r => r.id) →
        IdsDistinct (add_reminder now fid text dt rs).1)
    ∧ (∀ rid nt nd now, IdsDistinct (edit_reminder_dialog rid nt nd now rs).1)
    ∧ (∀ rid, IdsDistinct (delete_reminder rid rs).1)
    ∧ (∀ items : List RawItem, (items.map (fun it => it.id)).Nodup →
        IdsDistinct (load_reminders items)) := by
  refine ⟨?_, ?_, ?_, ?_⟩
  · intro now fid text dt hfresh
    by_cases ht : text = ""
    · simpa [add_reminder, ht] using h
    · by_cases hd : dt ≤ now
      · simpa [add_reminder, ht, hd] using h
      · rw [add_reminder, if_neg ht, if_neg hd]
        show IdsDistinct (sortByDue (rs ++ [{ id := fid, text := text, dateTime := some dt, notified := false }]))
        rw [idsDistinct_sortByDue]
        unfold IdsDistinct
        have hperm : ((rs ++ [({ id := fid, text := text, dateTime := some dt, notified := false } : Reminder)]).map (fun r => r.id)).Perm
            ((({ id := fid, text := text, dateTime := some dt, notified := false } : Reminder) :: rs).map (fun r => r.id)) :=
          (List.perm_append_singleton _ _).map _
        rw [hperm.nodup_iff, List.map_cons, List.nodup_cons]
        exact ⟨by simpa using hfresh, h⟩
  · intro rid nt nd now
    rw [edit_reminder_dialog]
    cases hf : rs.find? (fun r => r.id == rid) with
    | none => simpa using h
    | some r =>
      cases hdt : r.dateTime with
      | none => simpa [hdt] using h
      | some t =>
        by_cases ht : nt = ""
        · simpa [hdt, ht] using h
        · by_cases hd : nd ≤ now
          · simpa [hdt, ht, hd] using h
          · simp only [hdt, eq_false ht, eq_false hd, if_false]
            show IdsDistinct (sortByDue (updateFirst (fun s => s.id == rid) _ rs))
            rw [idsDistinct_sortByDue]
            unfold IdsDistinct
            rw [map_id_updateFirst (fun s => s.id == rid)
              (fun s => { s with text := nt, dateTime := some nd, notified := if now < nd ∧ (s.notified = true ∨ s.dateTime.getD 0 ≤ now) then false else s.notified })
              (fun s => rfl)]
            exact h
  · intro rid
    exact (h.sublist ((List.filter_sublist rs).map _))
  · intro items hids
    rw [load_reminders, idsDistinct_sortByDue]
    unfold IdsDistinct
    exact hids.sublist (load_ids_sublist items)

theorem ids_distinct_preserved_witness :
    IdsDistinct [({ id := 1, text := "a", dateTime := some 5, notified := false } : Reminder)]
    ∧ ((∀ now fid text dt, fid ∉
          [({ id := 1, text := "a", dateTime := some 5, notified := false } : Reminder)].map
            (fun r => r.id) →
          IdsDistinct (add_reminder now fid text dt
            [{ id := 1, text := "a", dateTime := some 5, notified := false }]).1)
       ∧ (∀ rid nt nd now, IdsDistinct (edit_reminder_dialog rid nt nd now
            [{ id := 1, text := "a", dateTime := some 5, notified := false }]).1)
       ∧ (∀ rid, IdsDistinct (delete_reminder rid
            [{ id := 1, text := "a", dateTime := some 5, notified := false }]).1)
       ∧ (∀ items : List RawItem, (items.map (fun it => it.id)).Nodup →
            IdsDistinct (load_reminders items))) :=
  ⟨by simp [IdsDistinct],
   ids_distinct_preserved _ (by simp [IdsDistinct])⟩
